import Mathlib

/-!
Verification of the hierarchical logging facility (joigmaga/logging).

The C++ sources are shallowly embedded:
  * `std::string` is modelled as `List Char`;
  * machine `int` severities are modelled as `Int` (all values used lie far
    from any overflow boundary);
  * ambient process data (current time rendered through `strftime`, thread
    hash, pid, ppid, main-thread test) is abstracted into an `FmtEnv`
    parameter, since the embedding cannot read clocks or thread ids;
  * streams are identified by the integer selectors of the source
    (`STDOUT`/`STDERR`/`STDLOG`) or an arbitrary integer for a user stream;
    a null stream pointer is `none`;
  * the variadic `format_message` step is abstracted: dispatch takes the
    already-rendered message as a parameter (in the source it is rendered
    once, before the ancestor walk, exactly as here).

Definitions follow `src/formatting.cpp`, `src/logging.cpp`,
`src/handling.cpp` and `src/include/logging.h` clause by clause.
-/

namespace Logging

/-! Severity and stream constants, from `src/include/logging.h`. -/

def UNCHANGED : Int := -1

def DEVNULL : Int := 0
def STDOUT : Int := 1
def STDERR : Int := 2
def STDLOG : Int := 3

def NOTSET : Int := 0
def DEBUG : Int := 1
def INFO : Int := 2
def WARNING : Int := 3
def ERROR : Int := 4
def CRITICAL : Int := 5
def MINLOG : Int := NOTSET
def MAXLOG : Int := CRITICAL

def MAX_MODULE_NAME_SIZE : Nat := 256
def MAX_MODULE_SUBFIELDS : Nat := 24
def MAX_RECORD_LENGTH : Nat := 512

def DEFAULT_RECORDFMT : List Char := "%t %I[%l] %N%m".toList

/-- Ambient data consumed by `Formatter::format_record`
(`src/formatting.cpp`): the rendered time for this call
(`format_time()`), the thread-hash string (`format_tid()`), the pid and
ppid strings, and whether the caller is the designated main thread. -/
structure FmtEnv where
  timestamp : List Char
  tid : List Char
  pid : List Char
  ppid : List Char
  isMainThread : Bool
deriving DecidableEq

/-- `Formatter::level_to_string` (`src/formatting.cpp`, lines 80-90). -/
def level_to_string (level : Int) (uppercase : Bool) : List Char :=
  if level = NOTSET then (if uppercase then "UNSET" else "unset").toList
  else if level = DEBUG then (if uppercase then "DEBUG" else "debug").toList
  else if level = INFO then (if uppercase then "INFO" else "info").toList
  else if level = WARNING then (if uppercase then "WARNING" else "warning").toList
  else if level = ERROR then (if uppercase then "ERROR" else "error").toList
  else if level = CRITICAL then (if uppercase then "CRITICAL" else "critical").toList
  else (if uppercase then "UNKNOWN" else "unknown").toList

/-- The `s_append` lambda of `Formatter::format_record`
(`src/formatting.cpp`, lines 159-163): if the record already exceeds
`max` it is resized (truncated) to `max` and `s` is dropped; if it is
shorter, at most `max - r.size()` characters of `s` are appended
(`substr(0, n)` is `take n`); if it is exactly `max`, nothing happens. -/
def s_append (r s : List Char) (max : Nat) : List Char :=
  if r.length > max then r.take max
  else if r.length < max then r ++ s.take (max - r.length)
  else r

/-- The `c_append` lambda of `Formatter::format_record`
(`src/formatting.cpp`, lines 164-165). -/
def c_append (r : List Char) (c : Char) : List Char :=
  if r.length < 4 then r ++ [c] else r

/-- The directive `switch` body of `Formatter::format_record`
(`src/formatting.cpp`, lines 185-226), given the record built so far and
the character following `%`. Fallthrough cases of the source
(`t`/`T`, `N` into `n`, `L` into `l`, `M`/`m`) are expanded; for `N` the
`": "` is appended with a plain `+=`, not through `s_append`, exactly as
in the source. The `default` case appends the `pending` buffer, which at
this point holds `%` and the directive character. -/
def fr_dir_step (env : FmtEnv) (message name : List Char) (level : Int)
    (record : List Char) (c2 : Char) : List Char :=
  if c2 = 't' ∨ c2 = 'T' then s_append record env.timestamp MAX_RECORD_LENGTH
  else if c2 = 'N' then
    (s_append record name MAX_RECORD_LENGTH) ++
      (if name.length > 0 then (": ").toList else [])
  else if c2 = 'n' then s_append record name MAX_RECORD_LENGTH
  else if c2 = 'I' then
    if env.isMainThread then record
    else s_append record (('(' :: env.tid) ++ [')', ' ']) MAX_RECORD_LENGTH
  else if c2 = 'i' then s_append record env.tid MAX_RECORD_LENGTH
  else if c2 = 'P' then s_append record env.ppid MAX_RECORD_LENGTH
  else if c2 = 'p' then s_append record env.pid MAX_RECORD_LENGTH
  else if c2 = 'L' then s_append record (level_to_string level true) MAX_RECORD_LENGTH
  else if c2 = 'l' then s_append record (level_to_string level false) MAX_RECORD_LENGTH
  else if c2 = 'M' ∨ c2 = 'm' then s_append record message MAX_RECORD_LENGTH
  else if c2 = '%' then s_append record ['%'] MAX_RECORD_LENGTH
  else s_append record (c_append (c_append [] '%') c2) MAX_RECORD_LENGTH

/-- The scanning loop of `Formatter::format_record`
(`src/formatting.cpp`, lines 168-229), recursing over the remaining
record-format characters with the record built so far.  At the top of
every source iteration `pending` is empty, so it is rebuilt locally with
`c_append`.  A character that is last in the format, or is not `%`,
flushes `pending` into the record through `s_append`; otherwise the next
character selects a directive.  The trailing `s_append(record, pending)`
after the source loop (line 229, with `pending` empty by then) is the
final `s_append _ []` of the two base cases. -/
def fr_loop (env : FmtEnv) (message name : List Char) (level : Int) :
    List Char → List Char → List Char
  | [], record => s_append record [] MAX_RECORD_LENGTH
  | [c], record =>
      s_append (s_append record (c_append [] c) MAX_RECORD_LENGTH) [] MAX_RECORD_LENGTH
  | c :: c2 :: rest, record =>
      if c ≠ '%' then
        fr_loop env message name level (c2 :: rest)
          (s_append record (c_append [] c) MAX_RECORD_LENGTH)
      else
        fr_loop env message name level rest
          (fr_dir_step env message name level record c2)

/-- `Formatter::format_record` (`src/formatting.cpp`, lines 151-232):
scan `recfmt` and expand directives into a record, capped at
`MAX_RECORD_LENGTH`. -/
def format_record (env : FmtEnv) (recfmt message name : List Char)
    (level : Int) : List Char :=
  fr_loop env message name level recfmt []

/-- Uncapped expansion of one directive: exactly what `fr_dir_step`
appends, with no length cap.  Used to define the ideal (unbounded)
expansion of a record format. -/
def dir_text (env : FmtEnv) (message name : List Char) (level : Int)
    (c2 : Char) : List Char :=
  if c2 = 't' ∨ c2 = 'T' then env.timestamp
  else if c2 = 'N' then name ++ (if name.length > 0 then (": ").toList else [])
  else if c2 = 'n' then name
  else if c2 = 'I' then
    if env.isMainThread then [] else ('(' :: env.tid) ++ [')', ' ']
  else if c2 = 'i' then env.tid
  else if c2 = 'P' then env.ppid
  else if c2 = 'p' then env.pid
  else if c2 = 'L' then level_to_string level true
  else if c2 = 'l' then level_to_string level false
  else if c2 = 'M' ∨ c2 = 'm' then message
  else if c2 = '%' then ['%']
  else ['%', c2]

/-- The uncapped analogue of `fr_loop`: same scan, but every expansion is
appended in full. -/
def ideal_loop (env : FmtEnv) (message name : List Char) (level : Int) :
    List Char → List Char → List Char
  | [], record => record
  | [c], record => record ++ [c]
  | c :: c2 :: rest, record =>
      if c ≠ '%' then
        ideal_loop env message name level (c2 :: rest) (record ++ [c])
      else
        ideal_loop env message name level rest
          (record ++ dir_text env message name level c2)

/-- The full, uncapped expansion of a record format: what
`format_record` would produce with no maximum record length. -/
def ideal_record (env : FmtEnv) (recfmt message name : List Char)
    (level : Int) : List Char :=
  ideal_loop env message name level recfmt []

/-- Two partially built records are tail-equivalent when every common
continuation yields the same capped output.  The invariant that relates
the capped scan (`fr_loop`) to the uncapped one (`ideal_loop`). -/
def TailEq (a b : List Char) : Prop :=
  ∀ s : List Char, (a ++ s).take MAX_RECORD_LENGTH = (b ++ s).take MAX_RECORD_LENGTH

/-- The directive characters actually recognized by the `switch` of
`Formatter::format_record` (`src/formatting.cpp`, lines 185-226). -/
def recognized_directives : List Char :=
  ['t', 'T', 'n', 'N', 'i', 'I', 'l', 'L', 'm', 'M', 'p', 'P', '%']

/-! The logger tree and the dispatch walk, from `src/logging.cpp`. -/

/-- One logger node as seen by `Logger::logaux`
(`src/logging.cpp`, lines 661-707): module name, stored level, output
stream (`none` models a null `outstream` pointer; `some k` a stream
selected by `k`), whether a log file is open, the attached formatter's
record format and ambient data, its eol flag, and the propagation flag.
The ancestor chain is represented as the list of nodes from the node
itself up to the root, in parent order. -/
structure LNode where
  modname : List Char
  loglevel : Int
  outstream : Option Int
  fileOpen : Bool
  recfmt : List Char
  env : FmtEnv
  eol : Bool
  propagate : Bool
deriving DecidableEq

/-- What `Logger::logaux` does at one visited node: the record it
renders there, and whether it writes it to the node's stream
(`wroteStream = some k` when the stream `k` received the record) and to
the node's open file. -/
structure NodeEmit where
  depth : Nat
  record : List Char
  wroteStream : Option Int
  wroteFile : Bool
deriving DecidableEq

/-- The ancestor walk of `Logger::logaux` (`src/logging.cpp`, lines
674-706): at each node the record is rendered with the walked node's
formatter but the origin's `modname` and the event's `level`; it is
written to the node's stream and open file exactly when
`level >= instance->loglevel` (the node's raw stored level); the walk
continues to the parent unless `propagate` is false. -/
def logaux_walk (message oname : List Char) (level : Int) :
    Nat → List LNode → List NodeEmit
  | _, [] => []
  | d, n :: rest =>
      { depth := d,
        record := format_record n.env n.recfmt message oname level,
        wroteStream := if n.loglevel ≤ level then n.outstream else none,
        wroteFile := if n.loglevel ≤ level then n.fileOpen else false } ::
      (if n.propagate then logaux_walk message oname level (d + 1) rest else [])

/-- `Logger::logaux` on a chain whose head is the origin node (`this` in
the source): the walk starts at the origin, and every record is rendered
with the origin's `modname`. -/
def logaux (chain : List LNode) (level : Int) (message : List Char) :
    List NodeEmit :=
  match chain with
  | [] => []
  | origin :: rest => logaux_walk message origin.modname level 0 (origin :: rest)

/-- `Logger::autolog` (`src/logging.cpp`, lines 642-659): when the
process-wide autolog flag is off, nothing happens; otherwise the origin
node's stream is forced to `STDERR` and its stored level to `DEBUG`
(through `set_streamer` / `set_loglevel`, whose clamp leaves `DEBUG`
unchanged), `logaux` runs, and both settings are restored.  The result
is the list of emits together with the chain after the call (restored to
its original state, since `logaux` mutates nothing). -/
def autolog_model (flag : Bool) (chain : List LNode) (level : Int)
    (message : List Char) : List NodeEmit × List LNode :=
  if flag then
    match chain with
    | [] => ([], [])
    | origin :: rest =>
        (logaux ({ origin with outstream := some STDERR, loglevel := DEBUG } :: rest)
          level message,
         origin :: rest)
  else ([], chain)

/-- Modelled from the spec: `get_effective_loglevel` is declared at
`src/include/logging.h` lines 97 and 141, for both `Logger` and
`LoggerTree`, but its implementation is not among the files under
`src/`.  Following the spec's words: the node's own level when it is not
`UNSET`, else the nearest ancestor's explicit level, else the fixed
default `WARNING`.  The argument is the list of stored levels from the
node itself up to the root. -/
def get_effective_loglevel : List Int → Int
  | [] => WARNING
  | l :: rest => if l ≠ NOTSET then l else get_effective_loglevel rest

/-- `Logger::set_loglevel` (`src/logging.cpp`, lines 446-455): given the
current stored level and the argument, returns the pre-call level (what
the source returns) and the new stored level
(`min(MAXLOG, max(MINLOG, abs(level)))` unless the argument is
`UNCHANGED`). -/
def set_loglevel (curlevel level : Int) : Int × Int :=
  (curlevel, if level ≠ UNCHANGED then min MAXLOG (max MINLOG |level|) else curlevel)

/-! Logger acquisition, from `Logger::get_regular_logger`
(`src/logging.cpp`, lines 275-368). -/

/-- The instance dictionaries of the logger tree: each node maps a
(sub)module name to a child.  Only live entries are modelled; an absent
key covers both the `not exists` and the `expired` branches of the
source, which behave identically (a fresh node is created). -/
inductive LTree where
  | node : List (List Char × LTree) → LTree

def LTree.dict : LTree → List (List Char × LTree)
  | .node d => d

/-- Outcome of logger acquisition: either the process aborted through
`exit(1)` after `created` new nodes had been linked into the tree, or a
node was returned after `created` new nodes were created. -/
inductive AcqOutcome where
  | aborted : Nat → AcqOutcome
  | ok : Nat → AcqOutcome
deriving DecidableEq

/-- Lookup of a (sub)module name in a node's dictionary
(`instance->dict.count(submod)` / `instance->dict[submod]`). -/
def ltree_lookup : List (List Char × LTree) → List Char → Option LTree
  | [], _ => none
  | (k, t) :: rest, key => if k = key then some t else ltree_lookup rest key

/-- The successive `submod` values of the source loop: at each `'.'`
found from position `dotpos`, `submod = module.substr(0, pos)` — the
whole dotted prefix up to (excluding) that dot — and the final `submod`
is the whole name.  `seen` accumulates the characters already passed. -/
def subnames_walk (seen : List Char) : List Char → List (List Char)
  | [] => [seen]
  | c :: rest =>
      if c = '.' then seen :: subnames_walk (seen ++ [c]) rest
      else subnames_walk (seen ++ [c]) rest

def module_subnames (module : List Char) : List (List Char) :=
  subnames_walk [] module

/-- The walk of `Logger::get_regular_logger` over the `submod` list
(`src/logging.cpp`, lines 302-362): `count` is `exit_loop` before its
pre-increment; when `++exit_loop > MAX_MODULE_SUBFIELDS` the process
exits (after the error is self-logged); otherwise an existing child is
entered, or a fresh node (with an empty dictionary) is created, linked
and entered; the node reached by the last `submod` is returned. -/
def acquire_walk : LTree → Nat → Nat → List (List Char) → AcqOutcome
  | _, created, _, [] => .ok created
  | t, created, count, p :: rest =>
      if count + 1 > MAX_MODULE_SUBFIELDS then .aborted created
      else
        match ltree_lookup t.dict p with
        | some child =>
            if rest = [] then .ok created
            else acquire_walk child created (count + 1) rest
        | none =>
            if rest = [] then .ok (created + 1)
            else acquire_walk (LTree.node []) (created + 1) (count + 1) rest

/-- `Logger::get_regular_logger` (`src/logging.cpp`, lines 275-368): a
module name longer than `MAX_MODULE_NAME_SIZE` exits before the walk
touches the tree; otherwise the `submod` walk runs from the root. -/
def get_regular_logger_model (root : LTree) (module : List Char) : AcqOutcome :=
  if module.length > MAX_MODULE_NAME_SIZE then .aborted 0
  else acquire_walk root 0 0 (module_subnames module)

/-! Log-file configuration, from `Logger::set_logfile`
(`src/handling.cpp`, lines 24-85; identically `src/logging.cpp`,
lines 491-549). -/

/-- The filesystem as `set_logfile` observes it: `resolve` is
`realpath`; `createOk` says whether `ofstream::open(fname, ios::trunc)`
succeeds; `resolveAfterCreate` is the second `realpath` call after a
successful create (whose result the source uses without a null check);
`openOk` says whether opening the resolved absolute path in append mode
succeeds. -/
structure FS where
  resolve : List Char → Option (List Char)
  createOk : List Char → Bool
  resolveAfterCreate : List Char → List Char
  openOk : List Char → Bool

/-- The node's file-sink state: the active log-file name (`filename`,
empty when none) and whether a log file is open. -/
structure FState where
  filename : List Char
  fileOpen : Bool
deriving DecidableEq

/-- `Logger::set_logfile`: resolve the requested name to an absolute
`newfname` (empty on failure, setting the error flag); then, whenever
`newfname` differs from the current `filename`, close the current file
and clear `filename` before attempting to open the new one; return `1`
when any error message was recorded, else `0`. -/
def set_logfile (fs : FS) (st : FState) (fname : List Char) : FState × Int :=
  let pr : List Char × Bool :=
    if fname ≠ [] then
      match fs.resolve fname with
      | some p => (p, false)
      | none =>
          if fs.createOk fname then (fs.resolveAfterCreate fname, false)
          else ([], true)
    else ([], false)
  let newfname := pr.1
  let err1 := pr.2
  if newfname ≠ st.filename then
    if newfname ≠ [] then
      if fs.openOk newfname then
        ({ filename := newfname, fileOpen := true }, if err1 then 1 else 0)
      else ({ filename := [], fileOpen := false }, 1)
    else ({ filename := [], fileOpen := false }, if err1 then 1 else 0)
  else (st, if err1 then 1 else 0)

/-! Concrete fixtures used by witnesses and counterexamples. -/

/-- Concrete environment: empty ambient strings, main thread. -/
def envW : FmtEnv := ⟨[], [], [], [], true⟩

/-- Concrete environment whose pid string is `4242`. -/
def envP : FmtEnv := ⟨[], [], "4242".toList, [], true⟩

/-- A 600-character message, longer than the record cap. -/
def msg600 : List Char := List.replicate 600 'a'

/-- A child node with level `NOTSET`, a configured stdout stream, and
propagation on. -/
def childC1 : LNode :=
  { modname := "a.b".toList, loglevel := NOTSET, outstream := some STDOUT,
    fileOpen := false, recfmt := "%m".toList, env := envW, eol := true,
    propagate := true }

/-- Its parent, with explicit level `CRITICAL`. -/
def parentC1 : LNode :=
  { modname := "a".toList, loglevel := CRITICAL, outstream := some STDOUT,
    fileOpen := false, recfmt := "%m".toList, env := envW, eol := true,
    propagate := true }

/-- A child with no stream of its own and propagation on. -/
def childC4 : LNode :=
  { modname := "a.b".toList, loglevel := NOTSET, outstream := none,
    fileOpen := false, recfmt := "%m".toList, env := envW, eol := true,
    propagate := true }

/-- Its parent, with a user-configured stdout stream and level `DEBUG`. -/
def parentC4 : LNode :=
  { modname := "a".toList, loglevel := DEBUG, outstream := some STDOUT,
    fileOpen := false, recfmt := "%m".toList, env := envW, eol := true,
    propagate := true }

/-- A dotted name with 25 single-letter segments (24 dots, 49
characters, well under the length limit). -/
def name25 : List Char :=
  "a.a.a.a.a.a.a.a.a.a.a.a.a.a.a.a.a.a.a.a.a.a.a.a.a".toList

/-- A 257-character name, over the length limit. -/
def name257 : List Char := List.replicate 257 'a'

/-- A filesystem on which nothing resolves, nothing can be created and
nothing opens. -/
def fsFail : FS := ⟨fun _ => none, fun _ => false, fun _ => [], fun _ => false⟩

/-- A node state with the log file `/old.log` open. -/
def stOld : FState := ⟨"/old.log".toList, true⟩

/-- A concrete rendered timestamp. -/
def ts0 : List Char := "2024/01/02:03:04:05".toList

/-! Helper lemmas. -/

theorem s_append_eq_take (r s : List Char) (m : Nat) :
    s_append r s m = (r ++ s).take m := by
  unfold s_append
  rcases Nat.lt_trichotomy r.length m with h | h | h
  · rw [if_neg (by omega), if_pos h, List.take_append_eq_append_take,
      List.take_of_length_le (Nat.le_of_lt h)]
  · rw [if_neg (by omega), if_neg (by omega), List.take_append_eq_append_take,
      h, Nat.sub_self, List.take_zero, List.append_nil, ← h, List.take_length]
  · rw [if_pos h, List.take_append_eq_append_take,
      Nat.sub_eq_zero_of_le (Nat.le_of_lt h), List.take_zero, List.append_nil]

theorem take_append_take (l s : List Char) (m : Nat) :
    (l.take m ++ s).take m = (l ++ s).take m := by
  rw [List.take_append_eq_append_take, List.take_append_eq_append_take,
    List.take_take, Nat.min_self, List.length_take]
  rcases Nat.le_total l.length m with h | h
  · rw [Nat.min_eq_right h]
  · rw [Nat.min_eq_left h, Nat.sub_eq_zero_of_le h,
      Nat.sub_eq_zero_of_le (le_refl m)]

theorem tailEq_refl (a : List Char) : TailEq a a := fun _ => rfl

theorem tailEq_s_append {record ideal : List Char} (x : List Char)
    (h : TailEq record ideal) :
    TailEq (s_append record x MAX_RECORD_LENGTH) (ideal ++ x) := by
  intro s
  rw [s_append_eq_take, take_append_take, List.append_assoc, h (x ++ s),
    ← List.append_assoc]

theorem tailEq_dir_step (env : FmtEnv) (message name : List Char) (level : Int)
    (c2 : Char) {record ideal : List Char} (h : TailEq record ideal) :
    TailEq (fr_dir_step env message name level record c2)
      (ideal ++ dir_text env message name level c2) := by
  unfold fr_dir_step dir_text
  by_cases h1 : c2 = 't' ∨ c2 = 'T'
  · simpa only [if_pos h1] using tailEq_s_append _ h
  rw [if_neg h1, if_neg h1]
  by_cases h2 : c2 = 'N'
  · rw [if_pos h2, if_pos h2]
    intro s
    rw [List.append_assoc, List.append_assoc]
    rw [tailEq_s_append name h _]
    rw [← List.append_assoc, ← List.append_assoc, ← List.append_assoc]
  rw [if_neg h2, if_neg h2]
  by_cases h3 : c2 = 'n'
  · simpa only [if_pos h3] using tailEq_s_append _ h
  rw [if_neg h3, if_neg h3]
  by_cases h4 : c2 = 'I'
  · rw [if_pos h4, if_pos h4]
    by_cases hmain : env.isMainThread
    · simpa only [if_pos hmain, List.append_nil] using h
    · simpa only [if_neg hmain] using tailEq_s_append _ h
  rw [if_neg h4, if_neg h4]
  by_cases h5 : c2 = 'i'
  · simpa only [if_pos h5] using tailEq_s_append _ h
  rw [if_neg h5, if_neg h5]
  by_cases h6 : c2 = 'P'
  · simpa only [if_pos h6] using tailEq_s_append _ h
  rw [if_neg h6, if_neg h6]
  by_cases h7 : c2 = 'p'
  · simpa only [if_pos h7] using tailEq_s_append _ h
  rw [if_neg h7, if_neg h7]
  by_cases h8 : c2 = 'L'
  · simpa only [if_pos h8] using tailEq_s_append _ h
  rw [if_neg h8, if_neg h8]
  by_cases h9 : c2 = 'l'
  · simpa only [if_pos h9] using tailEq_s_append _ h
  rw [if_neg h9, if_neg h9]
  by_cases h10 : c2 = 'M' ∨ c2 = 'm'
  · simpa only [if_pos h10] using tailEq_s_append _ h
  rw [if_neg h10, if_neg h10]
  by_cases h11 : c2 = '%'
  · simpa only [if_pos h11] using tailEq_s_append _ h
  rw [if_neg h11, if_neg h11]
  have hp2 : c_append (c_append [] '%') c2 = ['%', c2] := rfl
  rw [hp2]
  exact tailEq_s_append _ h

/-- The capped scan produces exactly the `MAX_RECORD_LENGTH`-truncation of
the uncapped scan, for any tail-equivalent pair of accumulators. -/
theorem fr_loop_eq_ideal (env : FmtEnv) (message name : List Char) (level : Int) :
    ∀ (fmt record ideal : List Char), TailEq record ideal →
    fr_loop env message name level fmt record =
      (ideal_loop env message name level fmt ideal).take MAX_RECORD_LENGTH
  | [], record, ideal, h => by
      have := h []
      rw [List.append_nil, List.append_nil] at this
      rw [fr_loop, ideal_loop, s_append_eq_take, List.append_nil, this]
  | [c], record, ideal, h => by
      have hc : c_append [] c = [c] := rfl
      rw [fr_loop, ideal_loop, hc, s_append_eq_take, s_append_eq_take,
        List.append_nil, List.take_take, Nat.min_self]
      exact h [c]
  | c :: c2 :: rest, record, ideal, h => by
      rw [fr_loop, ideal_loop]
      by_cases hc : c = '%'
      · rw [if_neg (by simpa using hc), if_neg (by simpa using hc)]
        subst hc
        exact fr_loop_eq_ideal env message name level rest _ _
          (tailEq_dir_step env message name level c2 h)
      · rw [if_pos (by simpa using hc), if_pos (by simpa using hc)]
        have hcc : c_append [] c = [c] := rfl
        rw [hcc]
        exact fr_loop_eq_ideal env message name level (c2 :: rest) _ _
          (tailEq_s_append [c] h)

/-- `format_record` is the truncation of the full expansion. -/
theorem format_record_eq_ideal (env : FmtEnv) (recfmt message name : List Char)
    (level : Int) :
    format_record env recfmt message name level =
      (ideal_record env recfmt message name level).take MAX_RECORD_LENGTH :=
  fr_loop_eq_ideal env message name level recfmt [] [] (tailEq_refl [])

/-- Every emit of the walk started at depth `d` has depth at least `d`. -/
theorem logaux_walk_depth_ge (message oname : List Char) (level : Int) :
    ∀ (chain : List LNode) (d : Nat) (e : NodeEmit),
      e ∈ logaux_walk message oname level d chain → d ≤ e.depth
  | [], _, _, h => absurd h (List.not_mem_nil _)
  | n :: rest, d, e, h => by
      rw [logaux_walk] at h
      rcases List.mem_cons.mp h with he | he
      · subst he; exact le_refl d
      · by_cases hp : n.propagate
        · rw [if_pos hp] at he
          exact Nat.le_of_succ_le (logaux_walk_depth_ge message oname level rest (d + 1) e he)
        · rw [if_neg hp] at he
          exact absurd he (List.not_mem_nil _)

/-- Every emit of the walk renders the record with the formatter of the
node at its own depth, the walk's `oname` and the walk's `level`. -/
theorem logaux_walk_records (message oname : List Char) (level : Int) :
    ∀ (chain : List LNode) (d : Nat) (e : NodeEmit),
      e ∈ logaux_walk message oname level d chain →
      ∃ n : LNode, chain[e.depth - d]? = some n ∧
        e.record = format_record n.env n.recfmt message oname level
  | [], _, _, h => absurd h (List.not_mem_nil _)
  | n :: rest, d, e, h => by
      rw [logaux_walk] at h
      rcases List.mem_cons.mp h with he | he
      · subst he
        exact ⟨n, by simp, rfl⟩
      · by_cases hp : n.propagate
        · rw [if_pos hp] at he
          have hd := logaux_walk_depth_ge message oname level rest (d + 1) e he
          obtain ⟨m, hm, hr⟩ := logaux_walk_records message oname level rest (d + 1) e he
          refine ⟨m, ?_, hr⟩
          have hidx : e.depth - d = (e.depth - (d + 1)) + 1 := by omega
          rw [hidx, List.getElem?_cons_succ]
          exact hm
        · rw [if_neg hp] at he
          exact absurd he (List.not_mem_nil _)

/-- When more `submod` steps remain than the walk may take, the walk
aborts, having created at most `MAX_MODULE_SUBFIELDS - count` nodes
beyond `created`. -/
theorem acquire_walk_aborts :
    ∀ (ps : List (List Char)) (t : LTree) (created count : Nat),
      count ≤ MAX_MODULE_SUBFIELDS →
      MAX_MODULE_SUBFIELDS < ps.length + count →
      ∃ k, acquire_walk t created count ps = .aborted k ∧
        k ≤ created + (MAX_MODULE_SUBFIELDS - count)
  | [], _, _, count, hle, hgt => by
      simp only [List.length_nil, Nat.zero_add] at hgt; omega
  | p :: rest, t, created, count, hle, hgt => by
      rw [acquire_walk]
      by_cases hstop : count + 1 > MAX_MODULE_SUBFIELDS
      · rw [if_pos hstop]
        exact ⟨created, rfl, by omega⟩
      · rw [if_neg hstop]
        have hrest : rest ≠ [] := by
          intro hnil
          subst hnil
          simp only [List.length_cons, List.length_nil] at hgt
          omega
        cases ltree_lookup t.dict p with
        | some child =>
            show ∃ k, (if rest = [] then AcqOutcome.ok created
                else acquire_walk child created (count + 1) rest) =
                AcqOutcome.aborted k ∧
              k ≤ created + (MAX_MODULE_SUBFIELDS - count)
            rw [if_neg hrest]
            obtain ⟨k, hk, hkle⟩ := acquire_walk_aborts rest child created (count + 1)
              (by omega) (by simp at hgt ⊢; omega)
            exact ⟨k, hk, by omega⟩
        | none =>
            show ∃ k, (if rest = [] then AcqOutcome.ok (created + 1)
                else acquire_walk (LTree.node []) (created + 1) (count + 1) rest) =
                AcqOutcome.aborted k ∧
              k ≤ created + (MAX_MODULE_SUBFIELDS - count)
            rw [if_neg hrest]
            obtain ⟨k, hk, hkle⟩ := acquire_walk_aborts rest (LTree.node [])
              (created + 1) (count + 1) (by omega) (by simp at hgt ⊢; omega)
            exact ⟨k, hk, by omega⟩

/-! Claim theorems. -/

/-- Claim C10: for every call `set_loglevel(v)` with `v` different from
`UNCHANGED`, the stored level becomes `min(CRITICAL, max(NOTSET, |v|))` —
negative arguments go through absolute value and out-of-range arguments
are clamped into `[NOTSET, CRITICAL]` rather than rejected — and the call
returns the level held before the call; `set_loglevel(UNCHANGED)` leaves
the level unchanged and still returns the current level. -/
theorem C10_set_loglevel_clamp (cur v : Int) :
    (v ≠ UNCHANGED →
      set_loglevel cur v = (cur, min CRITICAL (max NOTSET |v|))) ∧
    set_loglevel cur UNCHANGED = (cur, cur) := by
  constructor
  · intro hv
    simp [set_loglevel, hv, MAXLOG, MINLOG]
  · simp [set_loglevel]

/-- Witness for C10 at `cur = 2`, `v = -7`: the stored level becomes
`CRITICAL` (7 clamped to 5) and the old level 2 is returned. -/
theorem C10_set_loglevel_clamp_witness :
    (-7 : Int) ≠ UNCHANGED ∧ set_loglevel 2 (-7) = (2, CRITICAL) := by
  refine ⟨by decide, ?_⟩
  have h := (C10_set_loglevel_clamp 2 (-7)).1 (by decide)
  rw [h]
  decide

/-- Claim C2 (spec-modelled): effective severity resolution is total and
uncached — the node's own level when not `UNSET`, else the nearest
ancestor's explicit level, else the fixed default `WARNING` when every
level including the root's is `UNSET`; and since it is a pure function of
the currently stored levels, a `set_loglevel` on the parent is observed
by the child's very next resolution. -/
theorem C2_effective_level_resolution :
    (∀ (l : Int) (rest : List Int), l ≠ NOTSET →
      get_effective_loglevel (l :: rest) = l) ∧
    (∀ rest : List Int,
      get_effective_loglevel (NOTSET :: rest) = get_effective_loglevel rest) ∧
    (∀ levels : List Int, (∀ x ∈ levels, x = NOTSET) →
      get_effective_loglevel levels = WARNING) ∧
    (∀ (rest : List Int) (p v : Int), v ≠ UNCHANGED →
      (set_loglevel p v).2 ≠ NOTSET →
      get_effective_loglevel (NOTSET :: (set_loglevel p v).2 :: rest) =
        min MAXLOG (max MINLOG |v|)) := by
  refine ⟨?_, ?_, ?_, ?_⟩
  · intro l rest hl
    rw [get_effective_loglevel, if_pos hl]
  · intro rest
    rw [get_effective_loglevel, if_neg (by simp)]
  · intro levels h
    induction levels with
    | nil => rfl
    | cons l rest ih =>
        have hl : l = NOTSET := h l (List.mem_cons_self l rest)
        rw [get_effective_loglevel, hl, if_neg (by simp)]
        exact ih fun x hx => h x (List.mem_cons_of_mem l hx)
  · intro rest p v hv hnz
    rw [get_effective_loglevel, if_neg (by simp), get_effective_loglevel,
      if_pos hnz]
    simp [set_loglevel, hv]

/-- Witness for C2: a child with `UNSET` level under a parent just set to
`ERROR` resolves to `ERROR`. -/
theorem C2_effective_level_resolution_witness :
    (set_loglevel NOTSET ERROR).2 ≠ NOTSET ∧
    get_effective_loglevel [NOTSET, (set_loglevel NOTSET ERROR).2] = ERROR := by
  refine ⟨by decide, ?_⟩
  have h := C2_effective_level_resolution.2.2.2 [] NOTSET ERROR (by decide) (by decide)
  rw [h]
  decide

/-- Claim C1 (code bug): the claim — and the spec, and the declaration of
`get_effective_loglevel` at `src/include/logging.h` lines 97 and 141, and
the source's own interface comment at `src/logging.cpp` line 81 — want
the write gated by the node's effective threshold, with `UNSET` meaning
inherit; but `Logger::logaux` (`src/logging.cpp` line 683) compares
against the walked node's raw stored level, so a node whose own level is
`NOTSET` (0) passes every event.  Concretely: child `a.b` has level
`NOTSET` and a configured stream, its parent `a` has level `CRITICAL`;
the child's effective threshold is `CRITICAL` and the event is `DEBUG`,
so per the claim nothing may be written at the child — yet the code
writes the record to the child's stream. -/
theorem C1_raw_threshold_code_bug :
    logaux [childC1, parentC1] DEBUG "m".toList =
      [⟨0, "m".toList, some STDOUT, false⟩, ⟨1, "m".toList, none, false⟩] ∧
    get_effective_loglevel [childC1.loglevel, parentC1.loglevel] = CRITICAL ∧
    DEBUG < get_effective_loglevel [childC1.loglevel, parentC1.loglevel] := by
  refine ⟨by decide, by decide, by decide⟩

/-- Claim C3: for every record template, message, name and level, the
output of `format_record` never exceeds `MAX_RECORD_LENGTH` (512); a
record whose (uncapped) expansion exceeds that maximum is truncated to
exactly that length, the characters beyond the cap being dropped — the
output is precisely the 512-character prefix of the full expansion. -/
theorem C3_record_length_capped (env : FmtEnv) (recfmt message name : List Char)
    (level : Int) :
    format_record env recfmt message name level =
      (ideal_record env recfmt message name level).take MAX_RECORD_LENGTH ∧
    (format_record env recfmt message name level).length ≤ MAX_RECORD_LENGTH ∧
    (MAX_RECORD_LENGTH < (ideal_record env recfmt message name level).length →
      (format_record env recfmt message name level).length = MAX_RECORD_LENGTH) := by
  refine ⟨format_record_eq_ideal env recfmt message name level, ?_, ?_⟩
  · rw [format_record_eq_ideal, List.length_take]
    exact Nat.min_le_left _ _
  · intro hgt
    rw [format_record_eq_ideal, List.length_take]
    omega

/-- Witness for C3: a 600-character message rendered through `"%m"`
expands to 600 characters and is cut to exactly 512. -/
theorem C3_record_length_capped_witness :
    MAX_RECORD_LENGTH < (ideal_record envW ['%', 'm'] msg600 [] DEBUG).length ∧
    (format_record envW ['%', 'm'] msg600 [] DEBUG).length = MAX_RECORD_LENGTH := by
  have hideal : ideal_record envW ['%', 'm'] msg600 [] DEBUG = msg600 := rfl
  have hlen : MAX_RECORD_LENGTH < (ideal_record envW ['%', 'm'] msg600 [] DEBUG).length := by
    rw [hideal]
    show MAX_RECORD_LENGTH < (List.replicate 600 'a').length
    rw [List.length_replicate]
    decide
  exact ⟨hlen, (C3_record_length_capped envW ['%', 'm'] msg600 [] DEBUG).2.2 hlen⟩

/-- Counterexample to claim C7 as stated: the claim's recognized set
omits `p` and `P`, which the `switch` of `Formatter::format_record` does
recognize (`src/formatting.cpp`, lines 205-210).  `"%p"` does not pass
through as its two raw characters: it renders the pid string. -/
theorem C7_percent_p_counterexample :
    format_record envP ['%', 'p'] [] [] NOTSET = "4242".toList ∧
    format_record envP ['%', 'p'] [] [] NOTSET ≠ ['%', 'p'] := by
  refine ⟨by decide, by decide⟩

/-- Claim C7 (amended): every `%` followed by a directive character
outside the recognized set `{t,T,n,N,i,I,l,L,m,M,p,P,%}` passes through
as its two raw characters unchanged (they are appended, capped, and the
scan continues), and `%%` renders as a single `%` regardless of the
surrounding tokens (for any preceding partial record and any following
template text). -/
theorem C7_unknown_passthrough (env : FmtEnv) (message name : List Char)
    (level : Int) (record rest : List Char) (c2 : Char)
    (hc : c2 ∉ recognized_directives) :
    fr_loop env message name level ('%' :: c2 :: rest) record =
      fr_loop env message name level rest
        (s_append record ['%', c2] MAX_RECORD_LENGTH) ∧
    fr_loop env message name level ('%' :: '%' :: rest) record =
      fr_loop env message name level rest
        (s_append record ['%'] MAX_RECORD_LENGTH) ∧
    ideal_record env ['%', c2] message name level = ['%', c2] := by
  simp only [recognized_directives, List.mem_cons, List.not_mem_nil, or_false,
    not_or] at hc
  obtain ⟨ht, hT, hn, hN, hi, hI, hl, hL, hm, hM, hp, hP, hpc⟩ := hc
  have hstep : fr_dir_step env message name level record c2 =
      s_append record ['%', c2] MAX_RECORD_LENGTH := by
    unfold fr_dir_step
    rw [if_neg (by tauto), if_neg hN, if_neg hn, if_neg hI, if_neg hi,
      if_neg hP, if_neg hp, if_neg hL, if_neg hl, if_neg (by tauto),
      if_neg hpc]
    rfl
  refine ⟨?_, ?_, ?_⟩
  · rw [fr_loop, if_neg (by simp), hstep]
  · rw [fr_loop, if_neg (by simp)]
    have : fr_dir_step env message name level record '%' =
        s_append record ['%'] MAX_RECORD_LENGTH := by
      unfold fr_dir_step
      rfl
    rw [this]
  · unfold ideal_record ideal_loop dir_text
    rw [if_neg (by simp)]
    rw [if_neg (by tauto), if_neg hN, if_neg hn, if_neg hI, if_neg hi,
      if_neg hP, if_neg hp, if_neg hL, if_neg hl, if_neg (by tauto),
      if_neg hpc]
    rfl

/-- Witness for C7 (amended) at the unknown directive `z`. -/
theorem C7_unknown_passthrough_witness :
    ('z' ∉ recognized_directives) ∧
    format_record envW ['%', 'z'] [] [] NOTSET = ['%', 'z'] := by
  refine ⟨by decide, ?_⟩
  have h := (C7_unknown_passthrough envW [] [] NOTSET [] [] 'z' (by decide)).2.2
  rw [format_record_eq_ideal, h]
  decide

/-- Claim C8: with record template `"%t %I[%l] %N%m"`, message
`"hello"`, level `ERROR` and a main-thread caller, rendering with logger
name `""` produces exactly `"<time> [error] hello"` (no thread marker, no
name-colon prefix, lowercase level), and rendering with logger name
`"svc"` produces exactly `"<time> [error] svc: hello"`.  The rendered
time `ts` is abstract; the hypothesis keeps the record under the length
cap, as any `strftime`-rendered time is. -/
theorem C8_default_template_render (ts tid pid ppid : List Char)
    (h : ts.length + 19 ≤ MAX_RECORD_LENGTH) :
    format_record ⟨ts, tid, pid, ppid, true⟩ DEFAULT_RECORDFMT
        "hello".toList [] ERROR = ts ++ " [error] hello".toList ∧
    format_record ⟨ts, tid, pid, ppid, true⟩ DEFAULT_RECORDFMT
        "hello".toList "svc".toList ERROR = ts ++ " [error] svc: hello".toList := by
  have hfmt : DEFAULT_RECORDFMT =
      ['%', 't', ' ', '%', 'I', '[', '%', 'l', ']', ' ', '%', 'N', '%', 'm'] := rfl
  have hmsg : "hello".toList = ['h', 'e', 'l', 'l', 'o'] := rfl
  have hsvc : "svc".toList = ['s', 'v', 'c'] := rfl
  have hlv : level_to_string ERROR false = ['e', 'r', 'r', 'o', 'r'] := rfl
  have hout1 : " [error] hello".toList =
      [' ', '[', 'e', 'r', 'r', 'o', 'r', ']', ' ',
       'h', 'e', 'l', 'l', 'o'] := rfl
  have hout2 : " [error] svc: hello".toList =
      [' ', '[', 'e', 'r', 'r', 'o', 'r', ']', ' ', 's', 'v', 'c', ':', ' ',
       'h', 'e', 'l', 'l', 'o'] := rfl
  constructor
  · have hideal : ideal_record ⟨ts, tid, pid, ppid, true⟩ DEFAULT_RECORDFMT
        "hello".toList [] ERROR = ts ++ " [error] hello".toList := by
      rw [hfmt, hmsg, hout1]
      simp [ideal_record, ideal_loop, dir_text, hlv]
    rw [format_record_eq_ideal, hideal, List.take_of_length_le]
    rw [List.length_append, hout1]
    simp only [List.length_cons, List.length_nil]
    omega
  · have hideal : ideal_record ⟨ts, tid, pid, ppid, true⟩ DEFAULT_RECORDFMT
        "hello".toList "svc".toList ERROR = ts ++ " [error] svc: hello".toList := by
      rw [hfmt, hmsg, hsvc, hout2]
      simp [ideal_record, ideal_loop, dir_text, hlv]
    rw [format_record_eq_ideal, hideal, List.take_of_length_le]
    rw [List.length_append, hout2]
    simp only [List.length_cons, List.length_nil]
    omega

/-- Witness for C8 at a concrete rendered time. -/
theorem C8_default_template_render_witness :
    ts0.length + 19 ≤ MAX_RECORD_LENGTH ∧
    format_record ⟨ts0, [], [], [], true⟩ DEFAULT_RECORDFMT
        "hello".toList [] ERROR = ts0 ++ " [error] hello".toList ∧
    format_record ⟨ts0, [], [], [], true⟩ DEFAULT_RECORDFMT
        "hello".toList "svc".toList ERROR = ts0 ++ " [error] svc: hello".toList := by
  have hb : ts0.length + 19 ≤ MAX_RECORD_LENGTH := by decide
  exact ⟨hb, C8_default_template_render ts0 [] [] [] hb⟩

/-- Counterexample to claim C4 as stated: `Logger::autolog` forces the
origin's stream and threshold but does not touch `propagate`, so the
dispatch walk continues into the ancestors; with a parent holding a
user-configured stdout stream and a passing threshold, the autolog
record is written to that ancestor's sink. -/
theorem C4_autolog_propagates_counterexample :
    (autolog_model true [childC4, parentC4] DEBUG "m".toList).1 =
      [⟨0, "m".toList, some STDERR, false⟩,
       ⟨1, "m".toList, some STDOUT, false⟩] ∧
    parentC4.outstream = some STDOUT := by
  refine ⟨by decide, by decide⟩

/-- Claim C4 (amended): an autolog emission temporarily forces the
*origin node's* stream to `STDERR` and its stored level to `DEBUG`, and
restores both afterwards, so any stream write at the origin goes to
`STDERR`; with the flag off nothing is emitted; but propagation is *not*
disabled, so the record still walks the ancestors and can reach their
user-configured sinks (see the counterexample). -/
theorem C4_autolog_forced_settings (origin : LNode) (rest : List LNode)
    (level : Int) (message : List Char) :
    (∀ e ∈ (autolog_model true (origin :: rest) level message).1,
      e.depth = 0 → e.wroteStream = none ∨ e.wroteStream = some STDERR) ∧
    (autolog_model true (origin :: rest) level message).2 = origin :: rest ∧
    (∀ chain : List LNode, autolog_model false chain level message = ([], chain)) := by
  refine ⟨?_, rfl, fun _ => rfl⟩
  intro e he hd
  simp only [autolog_model, if_true, logaux, logaux_walk] at he
  rcases List.mem_cons.mp he with heq | hmem
  · subst heq
    simp only
    by_cases hlev : ({ origin with outstream := some STDERR, loglevel := DEBUG } :
        LNode).loglevel ≤ level
    · rw [if_pos hlev]; exact Or.inr rfl
    · rw [if_neg hlev]; exact Or.inl rfl
  · by_cases hp : ({ origin with outstream := some STDERR, loglevel := DEBUG } :
        LNode).propagate
    · rw [if_pos hp] at hmem
      have := logaux_walk_depth_ge message
        ({ origin with outstream := some STDERR, loglevel := DEBUG } :
          LNode).modname level rest 1 e hmem
      omega
    · rw [if_neg hp] at hmem
      exact absurd hmem (List.not_mem_nil _)

/-- Witness for C4 (amended): a single-node chain; the only emit is at
depth 0 and its stream write goes to `STDERR`. -/
theorem C4_autolog_forced_settings_witness :
    ((⟨0, "m".toList, some STDERR, false⟩ : NodeEmit) ∈
      (autolog_model true [childC4] DEBUG "m".toList).1) ∧
    ((⟨0, "m".toList, some STDERR, false⟩ : NodeEmit).wroteStream = none ∨
      (⟨0, "m".toList, some STDERR, false⟩ : NodeEmit).wroteStream = some STDERR) := by
  refine ⟨by decide, ?_⟩
  exact (C4_autolog_forced_settings childC4 [] DEBUG "m".toList).1 _ (by decide) rfl

/-- Counterexample to claim C5 as stated: acquiring a dotted name of 25
single-letter segments (well under the length bound) on a fresh tree
creates the nodes for the first 24 segments and only then aborts — the
rejection does not happen before any node is created. -/
theorem C5_nodes_created_before_abort :
    get_regular_logger_model (LTree.node []) name25 = AcqOutcome.aborted 24 ∧
    (24 : Nat) ≠ 0 := by
  refine ⟨by decide, by decide⟩

/-- Claim C5 (amended): a name longer than `MAX_MODULE_NAME_SIZE` is
rejected before any node is created, and the process aborts.  A name
with more than `MAX_MODULE_SUBFIELDS` dot-separated segments also makes
the process abort rather than return a node, but only during the walk:
nodes for up to the first `MAX_MODULE_SUBFIELDS` segments may already
have been created by then. -/
theorem C5_bounded_name_rejection :
    (∀ (root : LTree) (module : List Char),
      module.length > MAX_MODULE_NAME_SIZE →
      get_regular_logger_model root module = AcqOutcome.aborted 0) ∧
    (∀ (root : LTree) (module : List Char),
      MAX_MODULE_SUBFIELDS < (module_subnames module).length →
      ∃ k, get_regular_logger_model root module = AcqOutcome.aborted k ∧
        k ≤ MAX_MODULE_SUBFIELDS) := by
  constructor
  · intro root module hlen
    rw [get_regular_logger_model, if_pos hlen]
  · intro root module hseg
    by_cases hlen : module.length > MAX_MODULE_NAME_SIZE
    · exact ⟨0, by rw [get_regular_logger_model, if_pos hlen], by omega⟩
    · rw [get_regular_logger_model, if_neg hlen]
      obtain ⟨k, hk, hkle⟩ := acquire_walk_aborts (module_subnames module) root 0 0
        (by omega) (by omega)
      exact ⟨k, hk, by omega⟩

/-- Witness for C5 (amended): a 257-character name aborts with nothing
created; the 25-segment name aborts with at most 24 creations. -/
theorem C5_bounded_name_rejection_witness :
    name257.length > MAX_MODULE_NAME_SIZE ∧
    get_regular_logger_model (LTree.node []) name257 = AcqOutcome.aborted 0 ∧
    MAX_MODULE_SUBFIELDS < (module_subnames name25).length ∧
    (∃ k, get_regular_logger_model (LTree.node [("a".toList, LTree.node [])]) name25 =
      AcqOutcome.aborted k ∧ k ≤ MAX_MODULE_SUBFIELDS) := by
  have h1 : name257.length > MAX_MODULE_NAME_SIZE := by
    show (List.replicate 257 'a').length > MAX_MODULE_NAME_SIZE
    rw [List.length_replicate]
    decide
  have h2 : MAX_MODULE_SUBFIELDS < (module_subnames name25).length := by decide
  exact ⟨h1, C5_bounded_name_rejection.1 (LTree.node []) name257 h1, h2,
    C5_bounded_name_rejection.2 (LTree.node [("a".toList, LTree.node [])]) name25 h2⟩

/-- Counterexample to claim C6 as stated: with `/old.log` open and a new
path that can be neither resolved nor created, `set_logfile` returns the
error code 1 but has already closed the old file and cleared the node's
file-sink state — the previous state is not left intact. -/
theorem C6_previous_file_closed_on_error :
    set_logfile fsFail stOld "/bad.log".toList = (⟨[], false⟩, 1) ∧
    (⟨[], false⟩ : FState) ≠ stOld := by
  refine ⟨by decide, by decide⟩

/-- Claim C6 (amended): when the requested file can be neither resolved
nor created, `set_logfile` returns the error value 1; but the previous
file-sink state survives only when no file was previously configured —
when a previous log file was open, it has already been closed and the
node is left with no file sink (close-old is committed before, not after,
open-new succeeds). -/
theorem C6_set_logfile_failure_closes (fs : FS) (st : FState) (fname : List Char)
    (h1 : fname ≠ []) (h2 : fs.resolve fname = none)
    (h3 : fs.createOk fname = false) :
    (st.filename ≠ [] → set_logfile fs st fname = (⟨[], false⟩, 1)) ∧
    (st.filename = [] → set_logfile fs st fname = (st, 1)) := by
  constructor
  · intro hf
    simp only [set_logfile, if_pos h1, h2, h3]
    rw [if_pos (by simpa using Ne.symm hf)]
    simp
  · intro hf
    simp only [set_logfile, if_pos h1, h2, h3]
    rw [if_neg (by simp [hf])]
    simp

/-- Witness for C6 (amended), on the failing filesystem with `/old.log`
open. -/
theorem C6_set_logfile_failure_closes_witness :
    ("/bad.log".toList ≠ ([] : List Char)) ∧
    fsFail.resolve "/bad.log".toList = none ∧
    fsFail.createOk "/bad.log".toList = false ∧
    stOld.filename ≠ [] ∧
    set_logfile fsFail stOld "/bad.log".toList = (⟨[], false⟩, 1) := by
  refine ⟨by decide, rfl, rfl, by decide, ?_⟩
  exact (C6_set_logfile_failure_closes fsFail stOld "/bad.log".toList
    (by decide) rfl rfl).1 (by decide)

/-- Claim C9: during one emit, every record rendered along the ancestor
walk is produced by the *visited* node's formatter but carries the
*origin's* name and the *event's* severity, applied to the one message
rendered before the walk — so the message text is identical at every
node and only the formatter (and its time rendering) differs per node. -/
theorem C9_origin_identity (origin : LNode) (rest : List LNode)
    (level : Int) (message : List Char) :
    ∀ e ∈ logaux (origin :: rest) level message,
      ∃ n : LNode, (origin :: rest)[e.depth]? = some n ∧
        e.record = format_record n.env n.recfmt message origin.modname level := by
  intro e he
  have h := logaux_walk_records message origin.modname level (origin :: rest) 0 e he
  simpa using h

/-- Witness for C9: the record emitted at the parent (depth 1) is still
rendered with the child origin's name `a.b`. -/
theorem C9_origin_identity_witness :
    ((⟨1, "m".toList, none, false⟩ : NodeEmit) ∈
      logaux [childC1, parentC1] DEBUG "m".toList) ∧
    ∃ n : LNode,
      ([childC1, parentC1])[(⟨1, "m".toList, none, false⟩ : NodeEmit).depth]? =
        some n ∧
      (⟨1, "m".toList, none, false⟩ : NodeEmit).record =
        format_record n.env n.recfmt "m".toList childC1.modname DEBUG := by
  refine ⟨by decide, ?_⟩
  exact C9_origin_identity childC1 [parentC1] DEBUG "m".toList _ (by decide)

end Logging
